import Mathlib

/-!
# Verification of the WDO spatial-analysis pipeline

Shallow embedding of `Assignments/02-Missile_Geometry_101/run_project.py`:
the trajectory sampler, the spatial-relation analyses (country intersection,
proximity to the WDO base), the damage-zone record emission and the
country-level severity aggregation.  Python floats are modelled by `ℚ`;
geometric predicates supplied by the external geometry library (shapely /
geopandas) are kept as explicit function parameters; the geodesic helpers
imported from `wdo/wdo_geo.py` (a module not present in the sources) are
modelled from the specification where a claim depends on their behaviour.
-/

/-- Geographic point `(lat, lon)`, mirroring `wdo.wdo_geo.LatLon`. -/
structure LatLon where
  lat : ℚ
  lon : ℚ
deriving DecidableEq, Repr

/- ------------------------------------------------------------------
Python-style rounding: `round(x, 2)` rounds half to even.
------------------------------------------------------------------ -/

/-- Python's `round` to an integer (banker's rounding, half to even). -/
def roundHalfEven (y : ℚ) : ℤ :=
  let f := ⌊y⌋
  if y - f < 1/2 then f
  else if y - f > 1/2 then f + 1
  else if f % 2 = 0 then f else f + 1

/-- Python's `round(x, 2)`. -/
def round2 (x : ℚ) : ℚ := (roundHalfEven (x * 100) : ℚ) / 100

theorem roundHalfEven_close (y : ℚ) : |(roundHalfEven y : ℚ) - y| ≤ 1/2 := by
  have h1 : ((⌊y⌋ : ℤ) : ℚ) ≤ y := Int.floor_le y
  have h2 : y < (⌊y⌋ : ℚ) + 1 := Int.lt_floor_add_one y
  show |(((if y - ⌊y⌋ < 1/2 then ⌊y⌋
      else if y - ⌊y⌋ > 1/2 then ⌊y⌋ + 1
      else if ⌊y⌋ % 2 = 0 then ⌊y⌋ else ⌊y⌋ + 1) : ℤ) : ℚ) - y| ≤ 1/2
  split_ifs with ha hb hc <;> rw [abs_le] <;> constructor <;> push_cast <;>
    push_cast at ha <;> try push_cast at hb
  all_goals linarith

theorem round2_close (x : ℚ) : |round2 x - x| ≤ 1/200 := by
  have h := roundHalfEven_close (x * 100)
  have e : round2 x - x = ((roundHalfEven (x * 100) : ℚ) - x * 100) / 100 := by
    unfold round2; ring
  rw [e, abs_div, show |(100 : ℚ)| = 100 by norm_num]
  linarith

/- ------------------------------------------------------------------
Threat styles (run_project.py lines 69-74) and the two unknown-type
lookup behaviours (lines 140-143 versus 479-490).
------------------------------------------------------------------ -/

/-- One entry of `THREAT_STYLES` (lines 69-74). -/
structure ThreatStyle where
  color : String
  marker : String
  buffer_km : ℚ
  severity : String

/-- The `THREAT_STYLES` dict (lines 69-74); `none` means the key is absent. -/
def THREAT_STYLES : String → Option ThreatStyle := fun t =>
  if t = "alien" then some ⟨"#00FF00", "green", 150, "High"⟩
  else if t = "orbital" then some ⟨"#9400D3", "purple", 300, "Critical"⟩
  else if t = "airborne" then some ⟨"#FF8C00", "orange", 100, "Moderate"⟩
  else if t = "kaiju" then some ⟨"#FF0000", "red", 200, "Severe"⟩
  else none

/-- Result of the style lookup in `add_threat_origins` / `add_trajectories`
(lines 143 and 171): `threat_styles.get(t['type'], {'color': 'gray'})`.
The fallback dict carries only a gray color - no buffer radius, no severity. -/
inductive MarkerStyle where
  | full (s : ThreatStyle)
  | grayFallback

/-- `threat_styles.get(t['type'], {'color': 'gray'})`, line 143. -/
def originMarkerStyle (t : String) : MarkerStyle :=
  match THREAT_STYLES t with
  | some s => MarkerStyle.full s
  | none => MarkerStyle.grayFallback

/-- `THREAT_STYLES[t['type']]` in `endpoint_data` (line 480): direct dict
indexing; `none` models the `KeyError` raised on an absent key. -/
def endpointStyle (t : String) : Option ThreatStyle := THREAT_STYLES t

/-- C8: an unknown threat type is NOT handled uniformly across stages.  The
marker/trajectory stages silently fall back to a partial gray style, while the
damage-zone stage raises `KeyError`: evaluated at the failing input `"ufo"`,
the first lookup yields the silent gray fallback, the second yields failure,
while a known type gets a full style in both. -/
theorem unknown_type_stage_inconsistency :
    originMarkerStyle "ufo" = MarkerStyle.grayFallback ∧
    endpointStyle "ufo" = none ∧
    originMarkerStyle "alien" ≠ MarkerStyle.grayFallback ∧
    endpointStyle "alien" ≠ none := by
  refine ⟨rfl, rfl, fun h => ?_, fun h => ?_⟩
  · exact MarkerStyle.noConfusion h
  · exact Option.noConfusion h

/- ------------------------------------------------------------------
Milestone 3 (lines 308-318): total distance and stored destination.
------------------------------------------------------------------ -/

/-- Lines 309-310: `hours = duration_min / 60.0`;
`total_distance_km = round(speed_kmh * hours, 2)`. -/
def total_distance_km (speed_kmh duration_min : ℚ) : ℚ :=
  round2 (speed_kmh * (duration_min / 60))

/-- Lines 313-318: the stored destination is `destination_point` applied to
the ROUNDED total distance (`wdo_geo`'s `destination_point` itself is kept as
a parameter; only the call pattern lives in `run_project.py`). -/
def threat_destination (destination_point : LatLon → ℚ → ℚ → LatLon)
    (origin : LatLon) (bearing_deg speed_kmh duration_min : ℚ) : LatLon :=
  destination_point origin bearing_deg (total_distance_km speed_kmh duration_min)

/-- C10: the recorded total distance is `speed_kmh * (duration_min/60)` rounded
to 2 decimal places, the stored destination is `destination_point` evaluated at
that rounded distance, and the rounded distance differs from the exact product
by at most 0.005 km. -/
theorem total_distance_rounded_destination (speed_kmh duration_min : ℚ) :
    total_distance_km speed_kmh duration_min
      = round2 (speed_kmh * (duration_min / 60)) ∧
    |total_distance_km speed_kmh duration_min - speed_kmh * (duration_min / 60)|
      ≤ 1/200 ∧
    ∀ (destination_point : LatLon → ℚ → ℚ → LatLon) (origin : LatLon)
      (bearing_deg : ℚ),
      threat_destination destination_point origin bearing_deg speed_kmh duration_min
        = destination_point origin bearing_deg
            (total_distance_km speed_kmh duration_min) :=
  ⟨rfl, round2_close _, fun _ _ _ => rfl⟩

/- ------------------------------------------------------------------
Country polygons and line intersection (Milestone 4, lines 376-381).
The shapely `geometry.intersects` test is an external-library call and
is therefore a parameter of the embedding; the geometry type `γ` is
abstract.
------------------------------------------------------------------ -/

/-- One row of the world-borders GeoDataFrame: the `COUNTRY` column and the
row's geometry. -/
structure CountryRow (γ : Type) where
  name : String
  geom : γ
deriving DecidableEq

/-- Lines 377-379: `world_4326[world_4326.geometry.intersects(line)]` followed
by `list(intersected['COUNTRY'].values)` - the dataset rows whose geometry
intersects the trajectory line, in dataset iteration order. -/
def intersected_countries {γ : Type} (intersects : γ → γ → Bool) (line : γ)
    (world : List (CountryRow γ)) : List String :=
  (world.filter (fun c => intersects c.geom line)).map CountryRow.name

/-- C7 counterexample: with two countries both intersecting the path, the
stored `intersected_countries` value depends on the iteration order of the
polygon dataset - reversing the two dataset rows changes the result, so the
result is NOT order-independent as stated. -/
theorem intersected_countries_order_cex :
    intersected_countries (γ := Unit) (fun _ _ => true) ()
        [⟨"Canada", ()⟩, ⟨"United States", ()⟩]
      ≠ intersected_countries (γ := Unit) (fun _ _ => true) ()
        [⟨"United States", ()⟩, ⟨"Canada", ()⟩] := by
  intro h
  have := congrArg List.head? h
  simp [intersected_countries] at this

/-- C7 (amended): the stored result is a list in dataset iteration order;
permuting the dataset permutes the result (so its SET of names is
order-independent), and the result has no duplicates provided the dataset's
country names are unique. -/
theorem intersected_countries_set_semantics {γ : Type}
    (intersects : γ → γ → Bool) (line : γ) (w1 w2 : List (CountryRow γ))
    (hp : w1.Perm w2) (hnd : (w1.map CountryRow.name).Nodup) :
    (intersected_countries intersects line w1).Perm
        (intersected_countries intersects line w2) ∧
    (intersected_countries intersects line w1).toFinset
      = (intersected_countries intersects line w2).toFinset ∧
    (intersected_countries intersects line w1).Nodup := by
  have hperm : (intersected_countries intersects line w1).Perm
      (intersected_countries intersects line w2) := by
    unfold intersected_countries
    exact (hp.filter _).map _
  refine ⟨hperm, List.toFinset_eq_of_perm _ _ hperm, ?_⟩
  have hsub : (w1.filter (fun c => intersects c.geom line)).Sublist w1 :=
    List.filter_sublist w1
  exact List.Nodup.sublist (hsub.map CountryRow.name) hnd

/-- C7 witness: the amended theorem applied to a concrete two-row dataset and
its reversal. -/
theorem intersected_countries_set_semantics_witness :
    (intersected_countries (γ := Unit) (fun _ _ => true) ()
        [⟨"Canada", ()⟩, ⟨"United States", ()⟩]).Perm
      (intersected_countries (γ := Unit) (fun _ _ => true) ()
        [⟨"United States", ()⟩, ⟨"Canada", ()⟩]) ∧
    (intersected_countries (γ := Unit) (fun _ _ => true) ()
        [⟨"Canada", ()⟩, ⟨"United States", ()⟩]).toFinset
      = (intersected_countries (γ := Unit) (fun _ _ => true) ()
        [⟨"United States", ()⟩, ⟨"Canada", ()⟩]).toFinset ∧
    (intersected_countries (γ := Unit) (fun _ _ => true) ()
        [⟨"Canada", ()⟩, ⟨"United States", ()⟩]).Nodup :=
  intersected_countries_set_semantics (fun _ _ => true) ()
    [⟨"Canada", ()⟩, ⟨"United States", ()⟩]
    [⟨"United States", ()⟩, ⟨"Canada", ()⟩]
    (List.Perm.swap _ _ _) (by simp)

/- ------------------------------------------------------------------
Milestone 5 (lines 518-551): damage-record emission.
------------------------------------------------------------------ -/

/-- One row of `damage_records` (lines 535-541 and 545-551). -/
structure DamageRecord where
  country : String
  threat_id : String
  threat_type : String
  severity : String
  buffer_km : ℚ
deriving DecidableEq

/-- The sentinel country name used for ocean impact (line 546). -/
def oceanSentinel : String := "Ocean (no land)"

/-- One row of `buffers_4326` as consumed by the damage-record loop
(lines 520-527): id, type, severity, buffer radius and buffer geometry. -/
structure BufRow (γ : Type) where
  id : String
  type : String
  severity : String
  buffer_km : ℚ
  geom : γ

/-- Line 522: `world_4326[world_4326.geometry.intersects(buffer_geom)]`,
reduced to its `COUNTRY` column. -/
def affectedCountries {γ : Type} (intersects : γ → γ → Bool)
    (world : List (CountryRow γ)) (b : BufRow γ) : List String :=
  (world.filter (fun c => intersects c.geom b.geom)).map CountryRow.name

/-- Lines 533-551: if the buffer intersects at least one country, one record
per intersected country; otherwise exactly one ocean-sentinel record. -/
def damage_records_for {γ : Type} (intersects : γ → γ → Bool)
    (world : List (CountryRow γ)) (b : BufRow γ) : List DamageRecord :=
  let aff := affectedCountries intersects world b
  if 0 < aff.length then
    aff.map (fun cn => ⟨cn, b.id, b.type, b.severity, b.buffer_km⟩)
  else
    [⟨oceanSentinel, b.id, b.type, b.severity, b.buffer_km⟩]

/-- Lines 518-551: the full `damage_records` list over all buffer rows. -/
def damage_records {γ : Type} (intersects : γ → γ → Bool)
    (world : List (CountryRow γ)) (bufs : List (BufRow γ)) : List DamageRecord :=
  bufs.flatMap (damage_records_for intersects world)

/-- C3: a threat whose buffer intersects zero country polygons emits exactly
one record (the ocean sentinel), never zero; a threat whose buffer intersects
k ≥ 1 countries emits exactly one record per intersected country.  Every
emitted record carries the emitting threat's fields, and across all threats
each buffer row contributes at least one record. -/
theorem damage_records_emission {γ : Type} (intersects : γ → γ → Bool)
    (world : List (CountryRow γ)) (b : BufRow γ) (bufs : List (BufRow γ)) :
    (damage_records_for intersects world b).length
      = max 1 (affectedCountries intersects world b).length ∧
    ((damage_records_for intersects world b).map DamageRecord.country
      = if (affectedCountries intersects world b).length = 0 then [oceanSentinel]
        else affectedCountries intersects world b) ∧
    (∀ r ∈ damage_records_for intersects world b,
      r.threat_id = b.id ∧ r.threat_type = b.type ∧
      r.severity = b.severity ∧ r.buffer_km = b.buffer_km) ∧
    bufs.length ≤ (damage_records intersects world bufs).length := by
  refine ⟨?_, ?_, ?_, ?_⟩
  · unfold damage_records_for
    by_cases h : 0 < (affectedCountries intersects world b).length
    · rw [if_pos h, List.length_map]
      omega
    · rw [if_neg h, List.length_singleton]
      omega
  · unfold damage_records_for
    by_cases h : 0 < (affectedCountries intersects world b).length
    · have h0 : ¬ (affectedCountries intersects world b).length = 0 := by omega
      rw [if_pos h, if_neg h0, List.map_map]
      exact List.map_id'' (fun _ => rfl) _
    · have h0 : (affectedCountries intersects world b).length = 0 := by omega
      rw [if_neg h, if_pos h0]
      simp
  · unfold damage_records_for
    by_cases h : 0 < (affectedCountries intersects world b).length
    · rw [if_pos h]
      intro r hr
      rcases List.mem_map.mp hr with ⟨cn, _, rfl⟩
      exact ⟨rfl, rfl, rfl, rfl⟩
    · rw [if_neg h]
      intro r hr
      rcases List.mem_singleton.mp hr with rfl
      exact ⟨rfl, rfl, rfl, rfl⟩
  · unfold damage_records
    induction bufs with
    | nil => simp
    | cons hd tl ih =>
      have hlen : 1 ≤ (damage_records_for intersects world hd).length := by
        unfold damage_records_for
        by_cases h : 0 < (affectedCountries intersects world hd).length
        · rw [if_pos h, List.length_map]
          exact h
        · rw [if_neg h, List.length_singleton]
      simp only [List.flatMap_cons, List.length_append, List.length_cons]
      omega

/- ------------------------------------------------------------------
Country-level severity aggregation (lines 558-574).
------------------------------------------------------------------ -/

/-- Line 558: `severity_order = {'Critical': 4, 'Severe': 3, 'High': 2,
'Moderate': 1}`, accessed as `severity_order.get(s, 0)` (line 562), so every
other string ranks 0. -/
def severity_order (s : String) : ℕ :=
  if s = "Critical" then 4
  else if s = "Severe" then 3
  else if s = "High" then 2
  else if s = "Moderate" then 1
  else 0

/-- The severity labels that actually occur in `THREAT_STYLES`. -/
def canonicalSeverities : List String := ["Critical", "Severe", "High", "Moderate"]

theorem severity_order_inj :
    ∀ a ∈ canonicalSeverities, ∀ b ∈ canonicalSeverities,
      severity_order a = severity_order b → a = b := by
  intro a ha b hb h
  simp only [canonicalSeverities] at ha hb
  fin_cases ha <;> fin_cases hb <;> first | rfl | exact absurd h (by decide)

/-- One step of Python's `max(..., key=...)`: keep the current best, replace
only when the candidate's key is strictly greater. -/
def pymaxStep {α : Type} (key : α → ℕ) (best cand : α) : α :=
  if key best < key cand then cand else best

/-- Python's `max(xs, key=...)` (line 562): first element attaining the
maximal key; `none` on an empty list (where Python raises). -/
def pymax {α : Type} (key : α → ℕ) : List α → Option α
  | [] => none
  | h :: t => some (t.foldl (pymaxStep key) h)

theorem pymax_foldl_mem {α : Type} (key : α → ℕ) (t : List α) (h : α) :
    t.foldl (pymaxStep key) h ∈ h :: t := by
  induction t generalizing h with
  | nil => simp
  | cons x t ih =>
    simp only [List.foldl_cons]
    rcases List.mem_cons.mp (ih (pymaxStep key h x)) with heq | hmem
    · rw [heq]
      unfold pymaxStep
      split_ifs
      · exact List.mem_cons_of_mem _ (List.mem_cons_self _ _)
      · exact List.mem_cons_self _ _
    · exact List.mem_cons_of_mem _ (List.mem_cons_of_mem _ hmem)

theorem pymax_foldl_le {α : Type} (key : α → ℕ) (t : List α) (h : α) :
    ∀ b ∈ h :: t, key b ≤ key (t.foldl (pymaxStep key) h) := by
  induction t generalizing h with
  | nil =>
    intro b hb
    rcases List.mem_singleton.mp hb with rfl
    exact le_rfl
  | cons x t ih =>
    intro b hb
    simp only [List.foldl_cons]
    have hstep : key h ≤ key (pymaxStep key h x) ∧ key x ≤ key (pymaxStep key h x) := by
      unfold pymaxStep
      split_ifs with hlt
      · exact ⟨le_of_lt hlt, le_rfl⟩
      · exact ⟨le_rfl, le_of_not_lt hlt⟩
    rcases List.mem_cons.mp hb with heq | hb'
    · rw [heq]
      exact le_trans hstep.1 (ih (pymaxStep key h x) _ (List.mem_cons_self _ _))
    rcases List.mem_cons.mp hb' with heq2 | hb''
    · rw [heq2]
      exact le_trans hstep.2 (ih (pymaxStep key h x) _ (List.mem_cons_self _ _))
    · exact ih (pymaxStep key h x) b (List.mem_cons_of_mem _ hb'')

theorem pymax_eq_none_iff {α : Type} (key : α → ℕ) (l : List α) :
    pymax key l = none ↔ l = [] := by
  cases l <;> simp [pymax]

theorem pymax_mem {α : Type} (key : α → ℕ) {l : List α} {a : α}
    (h : pymax key l = some a) : a ∈ l := by
  cases l with
  | nil => cases h
  | cons x t =>
    simp only [pymax, Option.some.injEq] at h
    exact h ▸ pymax_foldl_mem key t x

theorem pymax_isMax {α : Type} (key : α → ℕ) {l : List α} {a : α}
    (h : pymax key l = some a) : ∀ b ∈ l, key b ≤ key a := by
  cases l with
  | nil => cases h
  | cons x t =>
    simp only [pymax, Option.some.injEq] at h
    exact h ▸ pymax_foldl_le key t x

theorem pymax_perm_eq {α : Type} (key : α → ℕ) {l1 l2 : List α} (hp : l1.Perm l2)
    (hinj : ∀ a ∈ l1, ∀ b ∈ l1, key a = key b → a = b) :
    pymax key l1 = pymax key l2 := by
  cases e1 : pymax key l1 with
  | none =>
    have h1 : l1 = [] := (pymax_eq_none_iff key l1).mp e1
    have h2 : l2 = [] := by
      subst h1
      exact (hp.symm.eq_nil)
    rw [h2]
    rfl
  | some a1 =>
    cases e2 : pymax key l2 with
    | none =>
      have h2 : l2 = [] := (pymax_eq_none_iff key l2).mp e2
      subst h2
      have h1 : l1 = [] := hp.eq_nil
      rw [h1] at e1
      cases e1
    | some a2 =>
      have m1 : a1 ∈ l1 := pymax_mem key e1
      have m2 : a2 ∈ l2 := pymax_mem key e2
      have m2' : a2 ∈ l1 := hp.mem_iff.mpr m2
      have k12 : key a1 ≤ key a2 := pymax_isMax key e2 a1 (hp.subset m1)
      have k21 : key a2 ≤ key a1 := pymax_isMax key e1 a2 (hp.symm.subset m2)
      rw [hinj a1 m1 a2 m2' (le_antisymm k12 k21)]

/-- `sorted(xs.unique())` as used on lines 560, 563, 564: the sorted list of
distinct values. -/
def sortedUnique (l : List String) : List String :=
  l.toFinset.sort (· ≤ ·)

theorem sortedUnique_perm {l1 l2 : List String} (hp : l1.Perm l2) :
    sortedUnique l1 = sortedUnique l2 := by
  unfold sortedUnique
  rw [List.toFinset_eq_of_perm _ _ hp]

theorem mem_sortedUnique {l : List String} {a : String} :
    a ∈ sortedUnique l ↔ a ∈ l := by
  unfold sortedUnique
  rw [Finset.mem_sort, List.mem_toFinset]

/-- One row of the country-level damage assessment table. -/
structure SummaryRow where
  country : String
  threat_ids : String
  threat_types : String
  worst_severity : Option String

/-- Lines 561-570: the summary entry built for one country `c`:
`rows = damage_df[damage_df['country'] == c]`,
`worst = max(rows['severity'].values, key=lambda s: severity_order.get(s, 0))`,
`types`/`threat_ids` are comma-joined sorted uniques. -/
def summaryRowFor (records : List DamageRecord) (c : String) : SummaryRow :=
  { country := c
    threat_ids := String.intercalate ", "
      (sortedUnique ((records.filter (fun r => r.country == c)).map
        DamageRecord.threat_id))
    threat_types := String.intercalate ", "
      (sortedUnique ((records.filter (fun r => r.country == c)).map
        DamageRecord.threat_type))
    worst_severity := pymax severity_order
      ((records.filter (fun r => r.country == c)).map DamageRecord.severity) }

/-- Lines 558-570: `for country in sorted(damage_df['country'].unique())`,
one summary row per distinct country value occurring in the records
(the ocean sentinel included). -/
def country_summary (records : List DamageRecord) : List SummaryRow :=
  (sortedUnique (records.map DamageRecord.country)).map (summaryRowFor records)

/-- C1: the country-level assessment is an order-independent reduction: any
permutation of the damage records (hence any threat processing order) yields
the same table, and each listed country's worst severity is attained by one of
its records and dominates all of its records under the fixed rank
Critical(4) > Severe(3) > High(2) > Moderate(1).  The hypothesis that record
severities are the canonical labels holds for all records the pipeline emits
(they are copied from `THREAT_STYLES`). -/
theorem country_summary_comm (l1 l2 : List DamageRecord) (hp : l1.Perm l2)
    (hsev : ∀ r ∈ l1, r.severity ∈ canonicalSeverities) :
    country_summary l1 = country_summary l2 ∧
    ∀ row ∈ country_summary l1, ∃ w, row.worst_severity = some w ∧
      (∃ r ∈ l1, r.country = row.country ∧ r.severity = w) ∧
      (∀ r ∈ l1, r.country = row.country →
        severity_order r.severity ≤ severity_order w) := by
  constructor
  · unfold country_summary
    rw [sortedUnique_perm (hp.map DamageRecord.country)]
    refine List.map_congr_left (fun c hc => ?_)
    have hrows := hp.filter (fun r => r.country == c)
    have hinj : ∀ a ∈ (l1.filter (fun r => r.country == c)).map DamageRecord.severity,
        ∀ b ∈ (l1.filter (fun r => r.country == c)).map DamageRecord.severity,
        severity_order a = severity_order b → a = b := by
      intro a ha b hb hk
      rcases List.mem_map.mp ha with ⟨ra, hra, rfl⟩
      rcases List.mem_map.mp hb with ⟨rb, hrb, rfl⟩
      exact severity_order_inj _ (hsev ra (List.mem_of_mem_filter hra))
        _ (hsev rb (List.mem_of_mem_filter hrb)) hk
    unfold summaryRowFor
    rw [sortedUnique_perm (hrows.map DamageRecord.threat_id),
      sortedUnique_perm (hrows.map DamageRecord.threat_type),
      pymax_perm_eq severity_order (hrows.map DamageRecord.severity) hinj]
  · intro row hrow
    unfold country_summary at hrow
    rcases List.mem_map.mp hrow with ⟨c, hc, hcrow⟩
    have hcmem : c ∈ l1.map DamageRecord.country := mem_sortedUnique.mp hc
    rcases List.mem_map.mp hcmem with ⟨r0, hr0, hr0c⟩
    have hr0f : r0 ∈ l1.filter (fun r => r.country == c) :=
      List.mem_filter.mpr ⟨hr0, by rw [hr0c]; exact beq_self_eq_true c⟩
    have hne : (l1.filter (fun r => r.country == c)).map DamageRecord.severity ≠ [] := by
      intro hemp
      have hm := List.mem_map_of_mem DamageRecord.severity hr0f
      rw [hemp] at hm
      exact absurd hm (List.not_mem_nil _)
    cases e : pymax severity_order
        ((l1.filter (fun r => r.country == c)).map DamageRecord.severity) with
    | none =>
      exact absurd ((pymax_eq_none_iff _ _).mp e) hne
    | some w =>
      refine ⟨w, ?_, ?_, ?_⟩
      · rw [← hcrow]
        exact e
      · rcases List.mem_map.mp (pymax_mem _ e) with ⟨r, hrf, hrw⟩
        rcases List.mem_filter.mp hrf with ⟨hrl, hrc⟩
        refine ⟨r, hrl, ?_, hrw⟩
        rw [← hcrow]
        exact eq_of_beq hrc
      · intro r hrl hrc
        have hrf : r ∈ l1.filter (fun r => r.country == c) := by
          refine List.mem_filter.mpr ⟨hrl, ?_⟩
          rw [← hcrow] at hrc
          rw [hrc]
          exact beq_self_eq_true c
        exact pymax_isMax _ e _ (List.mem_map_of_mem DamageRecord.severity hrf)

/-- C1 witness: order-independence of the assessment table at two concrete
record lists that are permutations of each other. -/
theorem country_summary_comm_witness :
    country_summary
        [⟨"United States", "T1", "kaiju", "Severe", 200⟩,
         ⟨"Canada", "T2", "orbital", "Critical", 300⟩]
      = country_summary
        [⟨"Canada", "T2", "orbital", "Critical", 300⟩,
         ⟨"United States", "T1", "kaiju", "Severe", 200⟩] :=
  (country_summary_comm _ _ (List.Perm.swap _ _ _)
    (by
      intro r hr
      rcases List.mem_cons.mp hr with heq | hr'
      · rw [heq]; decide
      rcases List.mem_cons.mp hr' with heq2 | hr''
      · rw [heq2]; decide
      · exact absurd hr'' (List.not_mem_nil r))).1

/-- C2 counterexample: a single ocean-impact record makes the sentinel
`"Ocean (no land)"` appear as a country row of the assessment table - the
code groups by every distinct `country` value, sentinel included (only the
map-highlighting step on line 582 filters it out). -/
theorem country_summary_includes_sentinel_cex :
    (country_summary [⟨"Ocean (no land)", "T1", "kaiju", "Severe", 200⟩]).map
        SummaryRow.country = ["Ocean (no land)"] := by
  have h : sortedUnique (([⟨"Ocean (no land)", "T1", "kaiju", "Severe", 200⟩] :
      List DamageRecord).map DamageRecord.country) = ["Ocean (no land)"] := by
    show sortedUnique ["Ocean (no land)"] = ["Ocean (no land)"]
    unfold sortedUnique
    rw [show (["Ocean (no land)"] : List String).toFinset = {"Ocean (no land)"} by rfl,
      Finset.sort_singleton]
  unfold country_summary
  rw [h]
  rfl

/-- C2 (amended): the per-country assessment table has one row per DISTINCT
country value occurring in the damage records, the ocean sentinel included -
a country (or the sentinel) appears as a row exactly when some record carries
it.  (The sentinel is excluded only from the later map-highlighting step, not
from the assessment table.) -/
theorem country_summary_countries (records : List DamageRecord) (c : String) :
    (∃ row ∈ country_summary records, row.country = c)
      ↔ c ∈ records.map DamageRecord.country := by
  constructor
  · rintro ⟨row, hrow, hcountry⟩
    unfold country_summary at hrow
    rcases List.mem_map.mp hrow with ⟨c', hc', hcrow⟩
    have hcc : c' = c := by
      rw [← hcountry, ← hcrow]
      rfl
    rw [← hcc]
    exact mem_sortedUnique.mp hc'
  · intro hcm
    refine ⟨summaryRowFor records c, ?_, rfl⟩
    unfold country_summary
    exact List.mem_map_of_mem _ (mem_sortedUnique.mpr hcm)

/- ------------------------------------------------------------------
Trajectory sampling.  `trajectory_points` lives in `wdo/wdo_geo.py`,
which is not among the sources; it is modelled from the specification
(section 4.2) here.
------------------------------------------------------------------ -/

/-- Modelled from the spec: the sampling grid of `trajectory_points`
(`wdo/wdo_geo.py`, absent from the sources).  Spec section 4.2: one sample per
elapsed time at the multiples of `step_min` up to and including
`duration_min`, the final sample always being the actual endpoint even if
`duration_min` is not an exact multiple of `step_min`. -/
def sampleTimes (duration_min step_min : ℚ) : List ℚ :=
  let n : ℕ := ⌊duration_min / step_min⌋.toNat
  let base := (List.range (n + 1)).map (fun i : ℕ => (i : ℚ) * step_min)
  if (n : ℚ) * step_min = duration_min then base else base ++ [duration_min]

/-- Modelled from the spec: `trajectory_points` (`wdo/wdo_geo.py`, absent from
the sources).  Spec section 4.2: sample point i is
`destination(origin, bearing_deg, speed_kmh * (t_i / 60))` where `t_i` is
elapsed minutes; the geodesic `destination` primitive stays a parameter. -/
def trajectory_points (destination : LatLon → ℚ → ℚ → LatLon)
    (origin : LatLon) (bearing_deg speed_kmh duration_min step_min : ℚ) :
    List LatLon :=
  (sampleTimes duration_min step_min).map
    (fun t => destination origin bearing_deg (speed_kmh * (t / 60)))

theorem sampleTimes_length (d s : ℚ) (hs : 0 < s) (hd : 0 ≤ d) :
    (sampleTimes d s).length = (⌈d / s⌉).toNat + 1 := by
  have hx : 0 ≤ d / s := div_nonneg hd (le_of_lt hs)
  have hfl : 0 ≤ ⌊d / s⌋ := Int.floor_nonneg.mpr hx
  unfold sampleTimes
  by_cases h : ((⌊d / s⌋.toNat : ℚ)) * s = d
  · rw [if_pos h, List.length_map, List.length_range]
    have hds : d / s = (⌊d / s⌋.toNat : ℚ) := by
      rw [eq_comm, eq_div_iff (ne_of_gt hs)]
      exact h
    have hceil : ⌈d / s⌉ = (⌊d / s⌋.toNat : ℤ) := by
      rw [hds]
      exact_mod_cast Int.ceil_natCast (⌊d / s⌋.toNat)
    omega
  · rw [if_neg h, List.length_append, List.length_map, List.length_range,
      List.length_singleton]
    have hne : ((⌊d / s⌋ : ℤ) : ℚ) ≠ d / s := by
      intro heq
      apply h
      have hq : (⌊d / s⌋.toNat : ℚ) = d / s := by
        rw [show ((⌊d / s⌋.toNat : ℚ)) = ((⌊d / s⌋.toNat : ℤ) : ℚ) by push_cast; rfl,
          Int.toNat_of_nonneg hfl]
        exact heq
      rw [hq, div_mul_cancel₀ _ (ne_of_gt hs)]
    have hlt : ((⌊d / s⌋ : ℤ) : ℚ) < d / s := lt_of_le_of_ne (Int.floor_le _) hne
    have hceil : ⌈d / s⌉ = ⌊d / s⌋ + 1 := by
      refine le_antisymm (Int.ceil_le.mpr ?_) ?_
      · push_cast
        exact (Int.lt_floor_add_one (d / s)).le
      · rw [Int.add_one_le_iff]
        exact Int.lt_ceil.mpr hlt
    omega

theorem sampleTimes_getLast (d s : ℚ) : (sampleTimes d s).getLast? = some d := by
  unfold sampleTimes
  by_cases h : ((⌊d / s⌋.toNat : ℚ)) * s = d
  · rw [if_pos h, List.range_succ, List.map_append, List.map_cons, List.map_nil,
      List.getLast?_concat, h]
  · rw [if_neg h, List.getLast?_concat]

/-- C4: the trajectory sample count is `⌈duration_min / step_min⌉ + 1` - the
multiples of `step_min` up to `duration_min` plus, when `duration_min` is not
an exact multiple, the appended endpoint sample. -/
theorem trajectory_points_count (destination : LatLon → ℚ → ℚ → LatLon)
    (origin : LatLon) (bearing_deg speed_kmh duration_min step_min : ℚ)
    (hs : 0 < step_min) (hd : 0 ≤ duration_min) :
    (trajectory_points destination origin bearing_deg speed_kmh duration_min
        step_min).length
      = (⌈duration_min / step_min⌉).toNat + 1 := by
  unfold trajectory_points
  rw [List.length_map]
  exact sampleTimes_length duration_min step_min hs hd

/-- C4 witness: the count theorem applied at duration 10 min, step 3 min. -/
theorem trajectory_points_count_witness :
    (trajectory_points (fun o _ _ => o) ⟨32, -96⟩ 45 600 10 3).length
      = (⌈(10 : ℚ) / 3⌉).toNat + 1 :=
  trajectory_points_count (fun o _ _ => o) ⟨32, -96⟩ 45 600 10 3
    (by norm_num) (by norm_num)

/-- C5 counterexample: at duration 5 min and step 2 min (the pipeline uses
`step_min=2.0`, line 305) the sampler emits the samples at 0, 2, 4 minutes
PLUS the endpoint at 5 minutes - 4 points, not `floor(5/2) + 1 = 3`.  The
claimed length formula `floor(duration/step) + 1` fails whenever
`duration_min` is not an exact multiple of `step_min`. -/
theorem trajectory_points_floor_cex :
    (trajectory_points (fun o _ _ => o) ⟨32, -96⟩ 90 600 5 2).length
      ≠ (⌊(5 : ℚ) / 2⌋).toNat + 1 := by
  have hfl : ⌊(5 : ℚ) / 2⌋ = 2 := by norm_num
  have hlen : (sampleTimes 5 2).length = 4 := by
    unfold sampleTimes
    rw [hfl]
    have hcond : ¬ ((((2 : ℤ).toNat : ℚ)) * 2 = 5) := by
      rw [show (2 : ℤ).toNat = 2 from rfl]
      norm_num
    rw [if_neg hcond]
    simp [show (2 : ℤ).toNat = 2 from rfl]
  unfold trajectory_points
  rw [List.length_map, hlen, hfl, show (2 : ℤ).toNat = 2 from rfl]
  norm_num

/-- C5 (amended): the sampled trajectory has length
`⌈duration/step⌉ + 1` (which equals `floor(duration/step) + 1` only when the
duration is an exact multiple of the step), and its last point equals
`destination(origin, bearing, speed * duration / 60)`. -/
theorem trajectory_points_length_last (destination : LatLon → ℚ → ℚ → LatLon)
    (origin : LatLon) (bearing_deg speed_kmh duration_min step_min : ℚ)
    (hs : 0 < step_min) (hd : 0 ≤ duration_min) :
    (trajectory_points destination origin bearing_deg speed_kmh duration_min
        step_min).length
      = (⌈duration_min / step_min⌉).toNat + 1 ∧
    (trajectory_points destination origin bearing_deg speed_kmh duration_min
        step_min).getLast?
      = some (destination origin bearing_deg (speed_kmh * duration_min / 60)) := by
  constructor
  · unfold trajectory_points
    rw [List.length_map]
    exact sampleTimes_length duration_min step_min hs hd
  · unfold trajectory_points
    rw [List.getLast?_map, sampleTimes_getLast, mul_div_assoc]
    rfl

/-- C5 witness: the amended length-and-endpoint theorem applied at duration
5 min, step 2 min. -/
theorem trajectory_points_length_last_witness :
    (trajectory_points (fun o _ _ => o) ⟨32, -96⟩ 90 600 5 2).length
      = (⌈(5 : ℚ) / 2⌉).toNat + 1 ∧
    (trajectory_points (fun o _ _ => o) ⟨32, -96⟩ 90 600 5 2).getLast?
      = some ((fun (o : LatLon) (_ _ : ℚ) => o) ⟨32, -96⟩ 90 (600 * 5 / 60)) :=
  trajectory_points_length_last (fun o _ _ => o) ⟨32, -96⟩ 90 600 5 2
    (by norm_num) (by norm_num)

/- ------------------------------------------------------------------
Base proximity analysis (lines 389-398).  `haversine_km` lives in
`wdo/wdo_geo.py` (absent from the sources), so the per-sample distance
function is a parameter `dist`.
------------------------------------------------------------------ -/

/-- One iteration of the loop on lines 392-394:
`if d < min_dist: min_dist = d`. -/
def pyMinStep (m : WithTop ℚ) (dnew : ℚ) : WithTop ℚ :=
  if (dnew : WithTop ℚ) < m then (dnew : WithTop ℚ) else m

/-- Lines 390-394: `min_dist = float('inf')` (modelled as `⊤`), then the
update loop over all trajectory samples. -/
def pyMinDist (dist : LatLon → ℚ) (pts : List LatLon) : WithTop ℚ :=
  pts.foldl (fun m p => pyMinStep m (dist p)) ⊤

/-- Line 395: `t['min_dist_to_base_km'] = round(min_dist, 2)`. -/
def min_dist_to_base_km (dist : LatLon → ℚ) (pts : List LatLon) : WithTop ℚ :=
  WithTop.map round2 (pyMinDist dist pts)

/-- Line 396: `t['passes_near_base'] = min_dist <= BASE_PROXIMITY_KM`, with
the UNROUNDED minimum and `BASE_PROXIMITY_KM = 500` (line 76). -/
def passes_near_base (dist : LatLon → ℚ) (pts : List LatLon) : Bool :=
  pyMinDist dist pts ≤ ((500 : ℚ) : WithTop ℚ)

theorem pyMin_foldl_le_init (dist : LatLon → ℚ) (pts : List LatLon)
    (a : WithTop ℚ) : pts.foldl (fun m p => pyMinStep m (dist p)) a ≤ a := by
  induction pts generalizing a with
  | nil => exact le_rfl
  | cons p t ih =>
    simp only [List.foldl_cons]
    refine le_trans (ih (pyMinStep a (dist p))) ?_
    unfold pyMinStep
    split_ifs with hlt
    · exact le_of_lt hlt
    · exact le_rfl

theorem pyMin_foldl_le_mem (dist : LatLon → ℚ) (pts : List LatLon)
    (a : WithTop ℚ) :
    ∀ p ∈ pts, pts.foldl (fun m p => pyMinStep m (dist p)) a
      ≤ ((dist p : ℚ) : WithTop ℚ) := by
  induction pts generalizing a with
  | nil =>
    intro p hp
    exact absurd hp (List.not_mem_nil p)
  | cons q t ih =>
    intro p hp
    simp only [List.foldl_cons]
    rcases List.mem_cons.mp hp with heq | hmem
    · rw [heq]
      refine le_trans (pyMin_foldl_le_init dist t (pyMinStep a (dist q))) ?_
      unfold pyMinStep
      split_ifs with hlt
      · exact le_rfl
      · exact le_of_not_lt hlt
    · exact ih (pyMinStep a (dist q)) p hmem

theorem pyMin_foldl_attained (dist : LatLon → ℚ) (pts : List LatLon)
    (a : WithTop ℚ) :
    pts.foldl (fun m p => pyMinStep m (dist p)) a = a ∨
      ∃ p ∈ pts, pts.foldl (fun m p => pyMinStep m (dist p)) a
        = ((dist p : ℚ) : WithTop ℚ) := by
  induction pts generalizing a with
  | nil => exact Or.inl rfl
  | cons q t ih =>
    simp only [List.foldl_cons]
    have hstep : pyMinStep a (dist q) = ((dist q : ℚ) : WithTop ℚ) ∨
        pyMinStep a (dist q) = a := by
      unfold pyMinStep
      split_ifs
      · exact Or.inl rfl
      · exact Or.inr rfl
    rcases ih (pyMinStep a (dist q)) with h | ⟨p, hp, hpe⟩
    · rcases hstep with he | he
      · exact Or.inr ⟨q, List.mem_cons_self _ _, by rw [h, he]⟩
      · exact Or.inl (by rw [h, he])
    · exact Or.inr ⟨p, List.mem_cons_of_mem _ hp, hpe⟩

/-- C6 counterexample: with a single-sample trajectory whose distance to the
base is 1/3 km, the true minimum over the samples is 1/3, but the RECORDED
minimum distance is `round(1/3, 2) = 0.33` - the stored value is the rounded
minimum, not the brute-force minimum itself. -/
theorem min_dist_recorded_rounding_cex :
    pyMinDist (fun _ => 1/3) [⟨0, 0⟩] = (((1 : ℚ)/3 : ℚ) : WithTop ℚ) ∧
    min_dist_to_base_km (fun _ => 1/3) [⟨0, 0⟩]
      ≠ (((1 : ℚ)/3 : ℚ) : WithTop ℚ) := by
  have h1 : pyMinDist (fun _ => (1 : ℚ)/3) [⟨0, 0⟩]
      = (((1 : ℚ)/3 : ℚ) : WithTop ℚ) := by
    unfold pyMinDist
    simp only [List.foldl_cons, List.foldl_nil]
    unfold pyMinStep
    rw [if_pos (WithTop.coe_lt_top _)]
  have hfl : ⌊(1 : ℚ)/3 * 100⌋ = 33 := by norm_num
  have hre : roundHalfEven ((1 : ℚ)/3 * 100) = 33 := by
    show (if (1 : ℚ)/3 * 100 - ⌊(1 : ℚ)/3 * 100⌋ < 1/2 then ⌊(1 : ℚ)/3 * 100⌋
        else if (1 : ℚ)/3 * 100 - ⌊(1 : ℚ)/3 * 100⌋ > 1/2 then ⌊(1 : ℚ)/3 * 100⌋ + 1
        else if ⌊(1 : ℚ)/3 * 100⌋ % 2 = 0 then ⌊(1 : ℚ)/3 * 100⌋
        else ⌊(1 : ℚ)/3 * 100⌋ + 1) = 33
    rw [hfl, if_pos (by norm_num)]
  have hval : round2 ((1 : ℚ)/3) = 33/100 := by
    unfold round2
    rw [hre]
    norm_num
  refine ⟨h1, ?_⟩
  unfold min_dist_to_base_km
  rw [h1, WithTop.map_coe, hval]
  intro hcontra
  have h2 : (33 : ℚ)/100 = 1/3 := WithTop.coe_inj.mp hcontra
  norm_num at h2

/-- C6 (amended): the unrounded loop minimum equals the brute-force minimum
over all trajectory samples (it is attained at a sample and bounds every
sample's distance), the near flag holds exactly when this UNROUNDED minimum
is at most the fixed 500 km threshold, and the RECORDED value is that minimum
rounded to 2 decimal places. -/
theorem min_dist_brute_force (dist : LatLon → ℚ) (pts : List LatLon)
    (h : pts ≠ []) :
    (∃ p ∈ pts, pyMinDist dist pts = ((dist p : ℚ) : WithTop ℚ)) ∧
    (∀ p ∈ pts, pyMinDist dist pts ≤ ((dist p : ℚ) : WithTop ℚ)) ∧
    (passes_near_base dist pts = true ↔
      pyMinDist dist pts ≤ ((500 : ℚ) : WithTop ℚ)) ∧
    min_dist_to_base_km dist pts = WithTop.map round2 (pyMinDist dist pts) := by
  refine ⟨?_, pyMin_foldl_le_mem dist pts ⊤, ?_, rfl⟩
  · rcases pyMin_foldl_attained dist pts ⊤ with htop | hex
    · exfalso
      rcases List.exists_mem_of_ne_nil pts h with ⟨p0, hp0⟩
      have hle := pyMin_foldl_le_mem dist pts ⊤ p0 hp0
      rw [htop] at hle
      exact absurd (top_le_iff.mp hle) (WithTop.coe_ne_top)
    · exact hex
  · unfold passes_near_base
    exact decide_eq_true_iff

/-- C6 witness: the amended theorem applied to a one-sample trajectory 600 km
from the base. -/
theorem min_dist_brute_force_witness :
    (∃ p ∈ ([⟨32, -96⟩] : List LatLon),
      pyMinDist (fun _ => (600 : ℚ)) [⟨32, -96⟩] = (((600 : ℚ) : ℚ) : WithTop ℚ)) ∧
    (∀ p ∈ ([⟨32, -96⟩] : List LatLon),
      pyMinDist (fun _ => (600 : ℚ)) [⟨32, -96⟩] ≤ (((600 : ℚ) : ℚ) : WithTop ℚ)) ∧
    (passes_near_base (fun _ => (600 : ℚ)) [⟨32, -96⟩] = true ↔
      pyMinDist (fun _ => (600 : ℚ)) [⟨32, -96⟩] ≤ ((500 : ℚ) : WithTop ℚ)) ∧
    min_dist_to_base_km (fun _ => (600 : ℚ)) [⟨32, -96⟩]
      = WithTop.map round2 (pyMinDist (fun _ => (600 : ℚ)) [⟨32, -96⟩]) :=
  min_dist_brute_force (fun _ => (600 : ℚ)) [⟨32, -96⟩] (List.cons_ne_nil _ _)

/- ------------------------------------------------------------------
Input validation at the primitives/sampler boundary (spec sections
4.1 and 7).  The boundary functions live in `wdo/wdo_geo.py`, absent
from the sources; the validation behaviour is modelled from the spec.
------------------------------------------------------------------ -/

/-- A Python float input: a finite rational, or one of the non-finite
values NaN / +inf / -inf. -/
inductive PyFloat where
  | finite (q : ℚ)
  | nan
  | inf
  | neginf
deriving DecidableEq

/-- `math.isfinite`. -/
def PyFloat.isFinite : PyFloat → Bool
  | .finite _ => true
  | _ => false

/-- The rational payload of a finite value (0 for non-finite ones; never
consulted past the finiteness guard). -/
def PyFloat.toRat : PyFloat → ℚ
  | .finite q => q
  | _ => 0

/-- A raw threat record as loaded from `threats.json` and consumed by the
enrichment loop (lines 233-254): identity plus unvalidated numeric fields. -/
structure RawThreat where
  id : String
  type : String
  origin_lat : PyFloat
  origin_lon : PyFloat
  bearing_deg : PyFloat
  speed_kmh : PyFloat
  duration_min : PyFloat

/-- The InvalidInput error kinds of spec section 7. -/
inductive InputError where
  | nonFinite
  | latOutOfRange
  | lonOutOfRange
  | negativeSpeed
  | negativeDuration
deriving DecidableEq

/-- A validated threat record: plain in-range rational kinematics. -/
structure ValidThreat where
  id : String
  type : String
  origin_lat : ℚ
  origin_lon : ℚ
  bearing_deg : ℚ
  speed_kmh : ℚ
  duration_min : ℚ

/-- Modelled from the spec: the validation boundary of the geodesic
primitives / trajectory sampler (`wdo/wdo_geo.py`, absent from the sources).
Spec sections 4.1 and 7: NaN/Inf guards and range checks reject a malformed
record with an InvalidInput validation error - coordinates out of range,
negative speed or duration, or non-finite numeric fields - and values are
never clamped: a record is either rejected or passed through unchanged. -/
def validate_threat (r : RawThreat) : Except InputError ValidThreat :=
  if r.origin_lat.isFinite = false ∨ r.origin_lon.isFinite = false ∨
      r.bearing_deg.isFinite = false ∨ r.speed_kmh.isFinite = false ∨
      r.duration_min.isFinite = false then
    Except.error InputError.nonFinite
  else if r.origin_lat.toRat < -90 ∨ 90 < r.origin_lat.toRat then
    Except.error InputError.latOutOfRange
  else if r.origin_lon.toRat < -180 ∨ 180 < r.origin_lon.toRat then
    Except.error InputError.lonOutOfRange
  else if r.speed_kmh.toRat < 0 then
    Except.error InputError.negativeSpeed
  else if r.duration_min.toRat < 0 then
    Except.error InputError.negativeDuration
  else
    Except.ok ⟨r.id, r.type, r.origin_lat.toRat, r.origin_lon.toRat,
      r.bearing_deg.toRat, r.speed_kmh.toRat, r.duration_min.toRat⟩

/-- The claim's notion of an invalid record: coordinates out of range,
negative speed or duration, or any non-finite numeric field. -/
def invalidInput (r : RawThreat) : Prop :=
  r.origin_lat.isFinite = false ∨ r.origin_lon.isFinite = false ∨
  r.bearing_deg.isFinite = false ∨ r.speed_kmh.isFinite = false ∨
  r.duration_min.isFinite = false ∨
  r.origin_lat.toRat < -90 ∨ 90 < r.origin_lat.toRat ∨
  r.origin_lon.toRat < -180 ∨ 180 < r.origin_lon.toRat ∨
  r.speed_kmh.toRat < 0 ∨ r.duration_min.toRat < 0

theorem pyFloat_finite_of_isFinite {p : PyFloat} (h : p.isFinite = true) :
    p = PyFloat.finite p.toRat := by
  cases p with
  | finite q => rfl
  | nan => cases h
  | inf => cases h
  | neginf => cases h

theorem validate_threat_ok_props (r : RawThreat) (v : ValidThreat)
    (h : validate_threat r = Except.ok v) :
    r.origin_lat = PyFloat.finite v.origin_lat ∧
    r.origin_lon = PyFloat.finite v.origin_lon ∧
    r.bearing_deg = PyFloat.finite v.bearing_deg ∧
    r.speed_kmh = PyFloat.finite v.speed_kmh ∧
    r.duration_min = PyFloat.finite v.duration_min ∧
    v.id = r.id ∧ v.type = r.type ∧
    -90 ≤ v.origin_lat ∧ v.origin_lat ≤ 90 ∧
    -180 ≤ v.origin_lon ∧ v.origin_lon ≤ 180 ∧
    0 ≤ v.speed_kmh ∧ 0 ≤ v.duration_min := by
  unfold validate_threat at h
  split_ifs at h with h1 h2 h3 h4 h5
  rcases Except.ok.injEq _ _ ▸ h with rfl
  push_neg at h1 h2 h3
  rcases h1 with ⟨f1, f2, f3, f4, f5⟩
  refine ⟨?_, ?_, ?_, ?_, ?_, rfl, rfl, ?_, ?_, ?_, ?_, ?_, ?_⟩
  · exact pyFloat_finite_of_isFinite (by simpa using f1)
  · exact pyFloat_finite_of_isFinite (by simpa using f2)
  · exact pyFloat_finite_of_isFinite (by simpa using f3)
  · exact pyFloat_finite_of_isFinite (by simpa using f4)
  · exact pyFloat_finite_of_isFinite (by simpa using f5)
  · exact h2.1
  · exact h2.2
  · exact h3.1
  · exact h3.2
  · exact le_of_not_lt h4
  · exact le_of_not_lt h5

/-- C9: a raw threat record with invalid input - coordinates out of range,
negative speed or duration, or a non-finite numeric field - is rejected at
the primitives/sampler validation boundary with an InvalidInput error, and a
record that is accepted is passed through unchanged (no silent clamping):
its validated fields are exactly the finite input values and satisfy the
range invariants. -/
theorem validate_threat_rejects_invalid (r : RawThreat) :
    (invalidInput r → ∃ e, validate_threat r = Except.error e) ∧
    (∀ v, validate_threat r = Except.ok v →
      r.origin_lat = PyFloat.finite v.origin_lat ∧
      r.origin_lon = PyFloat.finite v.origin_lon ∧
      r.bearing_deg = PyFloat.finite v.bearing_deg ∧
      r.speed_kmh = PyFloat.finite v.speed_kmh ∧
      r.duration_min = PyFloat.finite v.duration_min ∧
      v.id = r.id ∧ v.type = r.type ∧
      -90 ≤ v.origin_lat ∧ v.origin_lat ≤ 90 ∧
      -180 ≤ v.origin_lon ∧ v.origin_lon ≤ 180 ∧
      0 ≤ v.speed_kmh ∧ 0 ≤ v.duration_min) := by
  constructor
  · intro hinv
    cases hv : validate_threat r with
    | error e => exact ⟨e, rfl⟩
    | ok v =>
      exfalso
      obtain ⟨e1, e2, e3, e4, e5, _, _, b1, b2, b3, b4, b5, b6⟩ :=
        validate_threat_ok_props r v hv
      have g1 : r.origin_lat.isFinite = true := by rw [e1]; rfl
      have g2 : r.origin_lon.isFinite = true := by rw [e2]; rfl
      have g3 : r.bearing_deg.isFinite = true := by rw [e3]; rfl
      have g4 : r.speed_kmh.isFinite = true := by rw [e4]; rfl
      have g5 : r.duration_min.isFinite = true := by rw [e5]; rfl
      have t1 : r.origin_lat.toRat = v.origin_lat := by rw [e1]; rfl
      have t2 : r.origin_lon.toRat = v.origin_lon := by rw [e2]; rfl
      have t4 : r.speed_kmh.toRat = v.speed_kmh := by rw [e4]; rfl
      have t5 : r.duration_min.toRat = v.duration_min := by rw [e5]; rfl
      rcases hinv with hbad | hbad | hbad | hbad | hbad | hbad | hbad | hbad |
        hbad | hbad | hbad
      · rw [g1] at hbad; cases hbad
      · rw [g2] at hbad; cases hbad
      · rw [g3] at hbad; cases hbad
      · rw [g4] at hbad; cases hbad
      · rw [g5] at hbad; cases hbad
      · rw [t1] at hbad; linarith
      · rw [t1] at hbad; linarith
      · rw [t2] at hbad; linarith
      · rw [t2] at hbad; linarith
      · rw [t4] at hbad; linarith
      · rw [t5] at hbad; linarith
  · intro v hv
    exact validate_threat_ok_props r v hv

/-- C9 witness: a record with latitude 100 (out of range) is rejected with a
validation error. -/
theorem validate_threat_rejects_invalid_witness :
    ∃ e, validate_threat
      ⟨"T9", "alien", PyFloat.finite 100, PyFloat.finite 0, PyFloat.finite 0,
        PyFloat.finite 900, PyFloat.finite 60⟩ = Except.error e :=
  (validate_threat_rejects_invalid _).1
    (by
      right; right; right; right; right; right; left
      show (90 : ℚ) < 100
      norm_num)

/-- C3 witness: the emission theorem applied to a one-country world whose
country the buffer hits, with a singleton buffer list. -/
theorem damage_records_emission_witness :
    (damage_records_for (γ := Unit) (fun _ _ => true) [⟨"Canada", ()⟩]
        ⟨"T1", "kaiju", "Severe", 200, ()⟩).length
      = max 1 (affectedCountries (γ := Unit) (fun _ _ => true) [⟨"Canada", ()⟩]
          ⟨"T1", "kaiju", "Severe", 200, ()⟩).length ∧
    ((damage_records_for (γ := Unit) (fun _ _ => true) [⟨"Canada", ()⟩]
        ⟨"T1", "kaiju", "Severe", 200, ()⟩).map DamageRecord.country
      = if (affectedCountries (γ := Unit) (fun _ _ => true) [⟨"Canada", ()⟩]
            ⟨"T1", "kaiju", "Severe", 200, ()⟩).length = 0 then [oceanSentinel]
        else affectedCountries (γ := Unit) (fun _ _ => true) [⟨"Canada", ()⟩]
          ⟨"T1", "kaiju", "Severe", 200, ()⟩) ∧
    (∀ r ∈ damage_records_for (γ := Unit) (fun _ _ => true) [⟨"Canada", ()⟩]
        ⟨"T1", "kaiju", "Severe", 200, ()⟩,
      r.threat_id = "T1" ∧ r.threat_type = "kaiju" ∧
      r.severity = "Severe" ∧ r.buffer_km = 200) ∧
    ([⟨"T1", "kaiju", "Severe", 200, ()⟩] : List (BufRow Unit)).length
      ≤ (damage_records (γ := Unit) (fun _ _ => true) [⟨"Canada", ()⟩]
          [⟨"T1", "kaiju", "Severe", 200, ()⟩]).length :=
  damage_records_emission (fun _ _ => true) [⟨"Canada", ()⟩]
    ⟨"T1", "kaiju", "Severe", 200, ()⟩ [⟨"T1", "kaiju", "Severe", 200, ()⟩]

/-- C2 witness for the amended grouping statement: applied to a single
ocean-impact record and the sentinel name. -/
theorem country_summary_countries_witness :
    (∃ row ∈ country_summary
        [⟨"Ocean (no land)", "T1", "kaiju", "Severe", 200⟩],
      row.country = "Ocean (no land)")
      ↔ "Ocean (no land)" ∈ ([⟨"Ocean (no land)", "T1", "kaiju", "Severe", 200⟩] :
          List DamageRecord).map DamageRecord.country :=
  country_summary_countries
    [⟨"Ocean (no land)", "T1", "kaiju", "Severe", 200⟩] "Ocean (no land)"

/-- C10 witness: the rounded-distance theorem applied at speed 600 km/h and
duration 10 min. -/
theorem total_distance_rounded_destination_witness :
    total_distance_km 600 10 = round2 (600 * ((10 : ℚ) / 60)) ∧
    |total_distance_km 600 10 - 600 * ((10 : ℚ) / 60)| ≤ 1/200 ∧
    ∀ (destination_point : LatLon → ℚ → ℚ → LatLon) (origin : LatLon)
      (bearing_deg : ℚ),
      threat_destination destination_point origin bearing_deg 600 10
        = destination_point origin bearing_deg (total_distance_km 600 10) :=
  total_distance_rounded_destination 600 10
